import Mathlib

/-!
Verification of the summarization core of `summarizer.py`
(smart-research-summarizer).

The Python code is shallowly embedded: strings are Lean `String`s over
ASCII characters, Python string operations (`split`, `strip`, `join`,
the two `re.sub` calls of `clean_text`) are implemented as structurally
recursive functions over `List Char`, machine integers are `Nat`
(all quantities in the source are non-negative word/character counts),
and exceptions are modelled with `Except String`: a model-inference
call is an oracle of type `Model` whose `Except.error` outcome models a
raised exception, and each Python `try`/`except` block becomes a match
on that outcome.  Every model invocation is additionally recorded in a
call log (`List Call`) so that "no model invocation occurs" and
"per-chunk budgets" are provable statements.
-/

set_option linter.unusedVariables false
set_option maxRecDepth 8192

/-- Python `\s` (ASCII): space, tab, newline, carriage return,
vertical tab, form feed. -/
def isPyWs (c : Char) : Bool :=
  c = ' ' || c = '\t' || c = '\n' || c = '\r' || c = '\x0b' || c = '\x0c'

/-- Python `\w` restricted to ASCII: letters, digits, underscore. -/
def isWordChar (c : Char) : Bool :=
  c.isAlpha || c.isDigit || c = '_'

/-- The punctuation kept by `clean_text`'s second regex: `. , ! ? ; : -`. -/
def isKeptPunct (c : Char) : Bool :=
  c = '.' || c = ',' || c = '!' || c = '?' || c = ';' || c = ':' || c = '-'

/-- Character class kept by `re.sub(r'[^\w\s.,!?;:-]', '', text)`. -/
def allowedChar (c : Char) : Bool :=
  isWordChar c || isPyWs c || isKeptPunct c

/-- `re.sub(r'\s+', ' ', text)`: each maximal whitespace run becomes one
space.  The flag records whether the previous character was whitespace. -/
def collapseWsAux : List Char → Bool → List Char
  | [], _ => []
  | c :: rest, prevWs =>
    if isPyWs c then
      if prevWs then collapseWsAux rest true
      else ' ' :: collapseWsAux rest true
    else c :: collapseWsAux rest false

def collapseWs (l : List Char) : List Char :=
  collapseWsAux l false

/-- Python `str.strip()` on a character list. -/
def pyStripCL (l : List Char) : List Char :=
  ((l.dropWhile isPyWs).reverse.dropWhile isPyWs).reverse

/-- Python `str.strip()`. -/
def pyStrip (s : String) : String :=
  String.mk (pyStripCL s.data)

/-- Python `text.split('.')` on a character list: fragments between the
occurrences of `'.'`; always at least one fragment. -/
def splitDotCL : List Char → List Char → List (List Char)
  | [], acc => [acc.reverse]
  | '.' :: rest, acc => acc.reverse :: splitDotCL rest []
  | c :: rest, acc => splitDotCL rest (c :: acc)

/-- Python `text.split('. ')` on a character list: the two-character
separator is matched left to right, non-overlapping; always at least one
fragment (`"".split('. ') == ['']`). -/
def splitDotSpaceCL : List Char → List Char → List (List Char)
  | [], acc => [acc.reverse]
  | '.' :: ' ' :: rest, acc => acc.reverse :: splitDotSpaceCL rest []
  | c :: rest, acc => splitDotSpaceCL rest (c :: acc)

/-- Python `text.split('. ')`. -/
def pySplitDotSpace (s : String) : List String :=
  (splitDotSpaceCL s.data []).map String.mk

/-- Python `text.split()` (no argument): split on whitespace runs,
discarding empty fragments.  `acc` is the current word, reversed. -/
def pyWordsAux : List Char → List Char → List (List Char)
  | [], acc => if acc.isEmpty then [] else [acc.reverse]
  | c :: rest, acc =>
    if isPyWs c then
      if acc.isEmpty then pyWordsAux rest []
      else acc.reverse :: pyWordsAux rest []
    else pyWordsAux rest (c :: acc)

/-- Python `text.split()`; `len (pyWords s)` is `len(s.split())`. -/
def pyWords (s : String) : List String :=
  (pyWordsAux s.data []).map String.mk

/-- Python `sep.join(xs)` on character lists. -/
def joinCL (sep : List Char) : List (List Char) → List Char
  | [] => []
  | [x] => x
  | x :: y :: rest => x ++ sep ++ joinCL sep (y :: rest)

/-- Python `sep.join(xs)`. -/
def pyJoin (sep : String) : List String → String
  | [] => ""
  | [x] => x
  | x :: y :: rest => x ++ sep ++ pyJoin sep (y :: rest)

/-- `TextProcessor.clean_text`: collapse whitespace runs, drop
disallowed characters, split on `'.'`, keep only fragments whose
stripped length is strictly greater than 10 (stripped), rejoin with
`'. '`, and strip the result. -/
def cleanText (text : String) : String :=
  let collapsed := collapseWs text.data
  let filtered := collapsed.filter allowedChar
  let lines := splitDotCL filtered []
  let kept := lines.filterMap (fun line =>
    let s := pyStripCL line
    if 10 < s.length then some s else none)
  String.mk (pyStripCL (joinCL ['.', ' '] kept))

/-- `TextProcessor.chunk_text`'s accumulation loop, kept at the level of
sentence lists: `acc` is `current_chunk`, `accLen` is `current_length`
(the sum of the word counts of the sentences in `acc`). -/
def chunkLoop : List String → List String → Nat → Nat → List (List String)
  | [], acc, _, _ => if acc.isEmpty then [] else [acc]
  | s :: rest, acc, accLen, maxLen =>
    let slen := (pyWords s).length
    if maxLen < accLen + slen ∧ ¬acc.isEmpty then
      acc :: chunkLoop rest [s] slen maxLen
    else
      chunkLoop rest (acc ++ [s]) (accLen + slen) maxLen

/-- The chunks of `chunk_text` as lists of sentences, before rendering. -/
def chunkSentences (text : String) (maxLen : Nat) : List (List String) :=
  chunkLoop (pySplitDotSpace text) [] 0 maxLen

/-- `TextProcessor.chunk_text`: each flushed chunk is rendered as
`'. '.join(current_chunk) + '.'`. -/
def chunkText (text : String) (maxLen : Nat) : List String :=
  (chunkSentences text maxLen).map (fun c => pyJoin ". " c ++ ".")

/-- The sentence list of `ExtractiveSummarizer.summarize`:
`[s.strip() + '.' for s in text.split('. ') if len(s.strip()) > 20]`. -/
def retainedSentences (text : String) : List String :=
  (pySplitDotSpace text).filterMap (fun s =>
    let t := pyStrip s
    if 20 < t.length then some (t ++ ".") else none)

/-- Sum of `len(s.split())` over a sentence list. -/
def sentenceWordTotal (l : List String) : Nat :=
  (l.map (fun s => (pyWords s).length)).sum

/-- `int(avg_sentence_length)` where
`avg_sentence_length = sum(len(s.split()) for s in sentences) / len(sentences)`.
The float truncation `int(...)` of a non-negative exact quotient is the
`Nat` floor division. -/
def intAvg (l : List String) : Nat :=
  sentenceWordTotal l / l.length

/-- `target_sentences = max(1, min(len(sentences), target_length // int(avg)))`. -/
def targetSentenceCount (l : List String) (targetLength : Nat) : Nat :=
  max 1 (min l.length (targetLength / intAvg l))

/-- `ExtractiveSummarizer.summarize`.  In the selection branch the
sentence list is non-empty, so `headD`/`getLastD` model `sentences[0]`
and `sentences[-1]` exactly. -/
def extractiveSummarize (text : String) (targetLength : Nat) : String :=
  let sentences := retainedSentences text
  if sentences.isEmpty then "Unable to generate summary from the provided text."
  else
    let t := targetSentenceCount sentences targetLength
    if sentences.length ≤ t then pyJoin " " sentences
    else
      let middleData :=
        if 2 < t then
          let middleStart := sentences.length / 3
          let middleEnd := min sentences.length (middleStart + t - 2)
          (sentences.drop middleStart).take (middleEnd - middleStart)
        else []
      let selected := sentences.headD "" :: middleData
      let selected2 :=
        if selected.length < t ∧ 1 < sentences.length then
          selected ++ [sentences.getLastD ""]
        else selected
      pyJoin " " selected2

/-- One invocation of the loaded transformers pipeline: the text handed
to the model and the `min_length`/`max_length` word budgets. -/
structure Call where
  text : String
  minLen : Nat
  maxLen : Nat
deriving DecidableEq

/-- The loaded summarization pipeline, as an oracle: `Except.error e`
models the call raising an exception with message `e` (value/runtime/key
errors or anything unexpected), `Except.ok s` models
`summary[0]['summary_text']`. -/
def Model : Type :=
  String → Nat → Nat → Except String String

/-- Python computations that may raise: `Except.error` is an uncaught
exception. -/
abbrev PyM (α : Type) : Type := Except String α

/-- A Python `try`/`except Exception` block. -/
def pyTry {α : Type} (body : PyM α) (handler : String → PyM α) : PyM α :=
  match body with
  | Except.ok v => Except.ok v
  | Except.error e => handler e

/-- `SmartSummarizer._summarize_with_pipeline`: invoke the model; both
`except` arms (library-level errors and unexpected exceptions) fall back
to `ExtractiveSummarizer.summarize(text, max_len)`.  The returned list
records the one model invocation. -/
def summarizeWithPipeline (m : Model) (text : String) (minLen maxLen : Nat) :
    PyM (String × List Call) :=
  match m text minLen maxLen with
  | Except.ok s => Except.ok (s, [⟨text, minLen, maxLen⟩])
  | Except.error _ => Except.ok (extractiveSummarize text maxLen, [⟨text, minLen, maxLen⟩])

/-- The value `_summarize_with_pipeline` returns (it never raises). -/
def pipelineResult (m : Model) (text : String) (minLen maxLen : Nat) : String :=
  match m text minLen maxLen with
  | Except.ok s => s
  | Except.error _ => extractiveSummarize text maxLen

/-- The per-chunk loop of `SmartSummarizer._handle_long_text`: only
chunks with more than 50 words are summarized, with budgets
`max(20, min_len // len(chunks))` and `min(130, max_len // len(chunks))`;
the `except` arm (unreachable, since `_summarize_with_pipeline` catches
everything) appends `extractive.summarize(chunk, max_len // len(chunks))`.
Returns the chunk summaries in order and the model-call log. -/
def chunkPhase (m : Model) : List String → Nat → Nat → Nat → PyM (List String × List Call)
  | [], _, _, _ => Except.ok ([], [])
  | c :: rest, n, minLen, maxLen =>
    match chunkPhase m rest n minLen maxLen with
    | Except.error e => Except.error e
    | Except.ok r =>
      if 50 < (pyWords c).length then
        match summarizeWithPipeline m c (max 20 (minLen / n)) (min 130 (maxLen / n)) with
        | Except.ok p => Except.ok (p.1 :: r.1, p.2 ++ r.2)
        | Except.error _ => Except.ok (extractiveSummarize c (maxLen / n) :: r.1, r.2)
      else Except.ok r

/-- `SmartSummarizer._handle_long_text`: chunk with the default limit of
1000 words, summarize each big chunk, join with single spaces, and if the
combined summary still has more than `max_len` words, run one final
`_summarize_with_pipeline` pass over it with the original budgets. -/
def handleLongText (m : Model) (text : String) (minLen maxLen : Nat) :
    PyM (String × List Call) :=
  match chunkPhase m (chunkText text 1000) (chunkText text 1000).length minLen maxLen with
  | Except.error e => Except.error e
  | Except.ok r =>
    let combined := pyJoin " " r.1
    if maxLen < (pyWords combined).length then
      match summarizeWithPipeline m combined minLen maxLen with
      | Except.error e => Except.error e
      | Except.ok p => Except.ok (p.1, r.2 ++ p.2)
    else Except.ok (combined, r.2)

/-- The outer `except` of `SmartSummarizer.generate_summary`: re-clean
the input and summarize extractively; should that itself raise, return
the literal error-describing string. -/
def genSummaryHandler (text : String) (maxLen : Nat) (e : String) :
    PyM (String × List Call) :=
  pyTry (Except.ok (extractiveSummarize (cleanText text) maxLen, ([] : List Call)))
    (fun e2 => Except.ok
      ("Error generating summary: " ++ e2 ++ ". Please try with a different text.", []))

/-- `SmartSummarizer.generate_summary`: clean; return the too-short
sentinel below 50 words; with no loaded model, summarize extractively;
above 1000 words take the chunked path, otherwise the direct path
(`_handle_short_text` is exactly `_summarize_with_pipeline`); the whole
body is wrapped in the outer `try`/`except`. -/
def generateSummary (mgr : Option Model) (text : String) (minLen maxLen : Nat) :
    PyM (String × List Call) :=
  pyTry
    (let cleaned := cleanText text
     if (pyWords cleaned).length < 50 then
       Except.ok ("Text is too short to generate a meaningful summary.", ([] : List Call))
     else
       match mgr with
       | none => Except.ok (extractiveSummarize cleaned maxLen, [])
       | some m =>
         if 1000 < (pyWords cleaned).length then handleLongText m cleaned minLen maxLen
         else summarizeWithPipeline m cleaned minLen maxLen)
    (genSummaryHandler text maxLen)

/-! ## Spec-side and witness definitions

The `spec...` definitions follow the wording of the specification (not
the code) and exist only to be compared with the definitions above; the
model oracles and the fixed input below are used by witness theorems. -/

/-- Modelled from the spec wording of `clean(text)`: same pipeline as
`cleanText`, but fragments are kept exactly when their trimmed length is
at least 10 ("discards fragments shorter than 10 characters after
trimming"; "fragments of exactly 10 characters are kept"). -/
def specCleanTextClaim (text : String) : String :=
  let collapsed := collapseWs text.data
  let filtered := collapsed.filter allowedChar
  let kept := ((splitDotCL filtered []).map pyStripCL).filter (fun s => 10 ≤ s.length)
  String.mk (pyStripCL (joinCL ['.', ' '] kept))

/-- The amended spec wording of `clean(text)`: fragments whose trimmed
length is at most 10 are discarded (only strictly longer ones are kept),
phrased as trim-then-filter. -/
def specCleanTextAmended (text : String) : String :=
  let collapsed := collapseWs text.data
  let filtered := collapsed.filter allowedChar
  let kept := ((splitDotCL filtered []).map pyStripCL).filter (fun s => 10 < s.length)
  String.mk (pyStripCL (joinCL ['.', ' '] kept))

/-- Modelled from the claim's wording of the sentence filter: only
sentences *shorter than* 20 characters after trimming are discarded, so
a sentence of exactly 20 trimmed characters is retained. -/
def specRetainedSentences (text : String) : List String :=
  (pySplitDotSpace text).filterMap (fun s =>
    let t := pyStrip s
    if 20 ≤ t.length then some (t ++ ".") else none)

/-- Modelled from the spec's wording of the selection: the first
sentence; if more than 2 target sentences are requested, a contiguous
run starting at the one-third point spanning up to `target - 2`
sentences; then the last sentence if there is still room and more than
one sentence exists. -/
def specSelection (l : List String) (t : Nat) : List String :=
  let base := l.headD "" ::
    (if 2 < t then (l.drop (l.length / 3)).take (t - 2) else [])
  if base.length < t ∧ 1 < l.length then base ++ [l.getLastD ""] else base

/-- A model oracle whose every inference call raises. -/
def failModel : Model := fun _ _ _ => Except.error "model failure"

/-- A model oracle that always succeeds with a fixed short summary. -/
def okModel : Model := fun _ _ _ => Except.ok "ok"

/-- A model oracle that always succeeds with a three-word summary. -/
def threeWordModel : Model := fun _ _ _ => Except.ok "x y z"

/-- A 60-word input: one sentence, one chunk, above the 50-word
per-chunk threshold. -/
def sixtyWords : String := pyJoin " " (List.replicate 60 "w")

-- Concrete evaluations of the embedding, matching hand-executed CPython
-- results on the source functions.
example : pySplitDotSpace "" = [""] := by decide
example : pySplitDotSpace "a b. . c" = ["a b", "", "c"] := by decide
example : pyWords "  a  b " = ["a", "b"] := by decide
example : pyWords "" = [] := by decide
example : cleanText "abcdefghij" = "" := by decide
example : cleanText "abcdefghijk" = "abcdefghijk" := by decide
example : cleanText "Hello,   world@@@! This is a sentence." = "Hello, world! This is a sentence" := by decide
example : chunkText "a b. . c" 2 = ["a b. .", "c."] := by decide
example : chunkText "" 1000 = ["."] := by decide
example : extractiveSummarize "abcdefghijabcdefghij" 150
    = "Unable to generate summary from the provided text." := by decide
example : extractiveSummarize "aaaaa bbbbb ccccc ddddd" 150
    = "aaaaa bbbbb ccccc ddddd." := by decide

/-! ## C5: clean_text -/

theorem filterMap_strip_eq (n : Nat) (lines : List (List Char)) :
    lines.filterMap (fun line =>
        let s := pyStripCL line
        if n < s.length then some s else none)
      = ((lines.map pyStripCL).filter (fun s => n < s.length)) := by
  induction lines with
  | nil => rfl
  | cons a l ih =>
    by_cases h : n < (pyStripCL a).length <;>
      simp [List.filterMap_cons, h, ih]

/-- C5 counterexample: the claim says a fragment whose trimmed length is
exactly 10 characters is kept, but `clean_text` keeps only fragments
strictly longer than 10: on the 10-character input `"abcdefghij"` the
code returns the empty string while the claimed behavior keeps the
fragment. -/
theorem clean_text_boundary_cex :
    cleanText "abcdefghij" = ""
    ∧ specCleanTextClaim "abcdefghij" = "abcdefghij"
    ∧ cleanText "abcdefghij" ≠ specCleanTextClaim "abcdefghij" := by decide

/-- C5 (amended): `clean_text` collapses whitespace runs to single
spaces, strips characters outside word characters, whitespace and the
punctuation set `. , ! ? ; : -`, splits on `'.'`, discards exactly those
fragments whose trimmed length is at most 10 characters (fragments of
exactly 10 characters are discarded), rejoins the remainder with `'. '`,
and never fails, returning the empty string for degenerate input. -/
theorem clean_text_spec :
    ∀ text : String, cleanText text = specCleanTextAmended text ∧ cleanText "" = "" := by
  intro text
  refine ⟨?_, by decide⟩
  simp only [cleanText, specCleanTextAmended, filterMap_strip_eq]

/-! ## C3 and C4: chunk_text -/

theorem chunkLoop_flatten :
    ∀ (ss acc : List String) (accLen maxLen : Nat),
      (chunkLoop ss acc accLen maxLen).flatten = acc ++ ss := by
  intro ss
  induction ss with
  | nil =>
    intro acc accLen maxLen
    simp only [chunkLoop]
    split
    · next h => simp_all [List.isEmpty_iff]
    · simp
  | cons s rest ih =>
    intro acc accLen maxLen
    simp only [chunkLoop]
    split
    · simp [ih]
    · simp [ih]

theorem chunkLoop_ne_nil :
    ∀ (ss acc : List String) (accLen maxLen : Nat), ¬acc.isEmpty ∨ ss ≠ [] →
      chunkLoop ss acc accLen maxLen ≠ [] := by
  intro ss
  induction ss with
  | nil =>
    intro acc accLen maxLen h
    rcases h with h | h
    · simp [chunkLoop, h]
    · exact absurd rfl h
  | cons s rest ih =>
    intro acc accLen maxLen _
    simp only [chunkLoop]
    split
    · simp
    · exact ih (acc ++ [s]) _ maxLen (Or.inl (by simp))

theorem splitDotSpaceCL_ne_nil : ∀ (l acc : List Char), splitDotSpaceCL l acc ≠ [] := by
  intro l acc
  induction l, acc using splitDotSpaceCL.induct with
  | case1 acc => simp [splitDotSpaceCL]
  | case2 rest acc ih => simp [splitDotSpaceCL]
  | case3 c rest acc h ih => simpa [splitDotSpaceCL] using ih

/-- C4: the chunks of `chunk_text`, taken in output order and read
sentence by sentence, are exactly the input's `'. '`-split sentence
sequence — no sentence is duplicated, dropped or reordered — and the
final partial chunk is always emitted (the chunk list is never empty). -/
theorem chunking_reproduces_sentences :
    ∀ (text : String) (maxLen : Nat),
      (chunkSentences text maxLen).flatten = pySplitDotSpace text
      ∧ chunkSentences text maxLen ≠ [] := by
  intro text maxLen
  constructor
  · simpa using chunkLoop_flatten (pySplitDotSpace text) [] 0 maxLen
  · refine chunkLoop_ne_nil _ [] 0 maxLen (Or.inr ?_)
    simp only [pySplitDotSpace]
    intro h
    exact splitDotSpaceCL_ne_nil text.data [] (by simpa using h)

theorem sentenceWordTotal_append (a b : List String) :
    sentenceWordTotal (a ++ b) = sentenceWordTotal a + sentenceWordTotal b := by
  simp [sentenceWordTotal]

theorem chunkLoop_bound :
    ∀ (ss acc : List String) (maxLen : Nat),
      (sentenceWordTotal acc ≤ maxLen ∨ acc.length = 1) →
      ∀ c ∈ chunkLoop ss acc (sentenceWordTotal acc) maxLen,
        sentenceWordTotal c ≤ maxLen ∨ c.length = 1 := by
  intro ss
  induction ss with
  | nil =>
    intro acc maxLen hacc c hc
    simp only [chunkLoop] at hc
    split at hc
    · simp at hc
    · simp only [List.mem_singleton] at hc
      exact hc ▸ hacc
  | cons s rest ih =>
    intro acc maxLen hacc c hc
    simp only [chunkLoop] at hc
    split at hc
    · next h =>
      rcases List.mem_cons.mp hc with h' | h'
      · exact h' ▸ hacc
      · have hts : sentenceWordTotal [s] = (pyWords s).length := by
          simp [sentenceWordTotal]
        rw [← hts] at h'
        exact ih [s] maxLen (Or.inr rfl) c h'
    · next h =>
      have hlen : sentenceWordTotal acc + (pyWords s).length
          = sentenceWordTotal (acc ++ [s]) := by
        simp [sentenceWordTotal_append, sentenceWordTotal]
      rw [hlen] at hc
      rcases Decidable.not_and_iff_or_not.mp h with h1 | h2
      · exact ih (acc ++ [s]) maxLen (Or.inl (by rw [← hlen]; omega)) c hc
      · have hnil : acc = [] := by simpa [List.isEmpty_iff] using h2
        subst hnil
        exact ih [s] maxLen (Or.inr rfl) c (by simpa using hc)

/-- C3 counterexample: with maximum chunk size 2, the input
`"a b. . c"` (whose `'. '`-split contains an empty fragment) produces
the chunk `"a b. ."`: its word count is 3, exceeding the maximum, yet
it consists of two sentences (`"a b"` and `""`), not of exactly one
oversized sentence. -/
theorem chunk_word_bound_cex :
    chunkText "a b. . c" 2 = ["a b. .", "c."]
    ∧ chunkSentences "a b. . c" 2 = [["a b", ""], ["c"]]
    ∧ (pyWords "a b. .").length = 3
    ∧ ¬((pyWords "a b. .").length ≤ 2 ∨ (["a b", ""] : List String).length = 1) := by
  decide

/-- C3 (amended): for every input text and maximum chunk size, every
chunk produced by `chunk_text`, with its word count measured as the sum
of the word counts of its constituent sentences (the accumulator the
code maintains), does not exceed the maximum, except a chunk consisting
of exactly one sentence; the rendered chunk string can exceed the bound
only through the `'. '`-separator artifacts introduced by empty or
whitespace-edged sentence fragments. -/
theorem chunk_word_bound :
    ∀ (text : String) (maxLen : Nat), ∀ c ∈ chunkSentences text maxLen,
      sentenceWordTotal c ≤ maxLen ∨ c.length = 1 := by
  intro text maxLen
  have h0 : sentenceWordTotal ([] : List String) = 0 := by simp [sentenceWordTotal]
  have := chunkLoop_bound (pySplitDotSpace text) [] maxLen
    (Or.inl (by simp [h0]))
  rw [h0] at this
  exact this

/-- C3 witness: the amended bound applied to the first chunk of a
concrete input. -/
theorem chunk_word_bound_witness :
    sentenceWordTotal ["a b", ""] ≤ 2 ∨ (["a b", ""] : List String).length = 1 :=
  chunk_word_bound "a b. . c" 2 ["a b", ""] (by decide)

/-! ## C10: no division by zero in the extractive target computation -/

theorem pyWordsAux_eq_nil :
    ∀ (l acc : List Char), pyWordsAux l acc = [] →
      acc = [] ∧ ∀ c ∈ l, isPyWs c = true := by
  intro l
  induction l with
  | nil =>
    intro acc h
    simp only [pyWordsAux] at h
    split at h
    · next he => exact ⟨List.isEmpty_iff.mp he, by simp⟩
    · simp at h
  | cons c rest ih =>
    intro acc h
    simp only [pyWordsAux] at h
    split at h
    · next hws =>
      split at h
      · next he =>
        rcases ih [] h with ⟨_, hrest⟩
        exact ⟨List.isEmpty_iff.mp he, by
          intro d hd
          rcases List.mem_cons.mp hd with rfl | hd
          · exact hws
          · exact hrest d hd⟩
      · simp at h
    · next hws =>
      rcases ih (c :: acc) h with ⟨habs, _⟩
      exact absurd habs (by simp)

theorem retained_sentence_has_word :
    ∀ (text : String) (s : String), s ∈ retainedSentences text →
      1 ≤ (pyWords s).length := by
  intro text s hs
  simp only [retainedSentences, List.mem_filterMap] at hs
  rcases hs with ⟨a, _, ha⟩
  split at ha
  · have hseq : s = pyStrip a ++ "." := by
      exact (Option.some.inj ha).symm
    subst hseq
    by_contra hlt
    have hnil : pyWords (pyStrip a ++ ".") = [] := by
      cases h : pyWords (pyStrip a ++ ".") with
      | nil => rfl
      | cons x xs => rw [h] at hlt; simp at hlt
    have hnil2 : pyWordsAux (pyStrip a ++ ".").data [] = [] := by
      simpa [pyWords] using hnil
    have hdot : '.' ∈ (pyStrip a ++ ".").data := by
      rw [String.data_append]
      simp [String.data]
    have := (pyWordsAux_eq_nil _ [] hnil2).2 '.' hdot
    simp [isPyWs] at this
  · simp at ha

theorem length_le_wordTotal :
    ∀ l : List String, (∀ s ∈ l, 1 ≤ (pyWords s).length) →
      l.length ≤ sentenceWordTotal l := by
  intro l
  induction l with
  | nil => intro _; simp [sentenceWordTotal]
  | cons s rest ih =>
    intro h
    have h1 := h s (by simp)
    have h2 := ih (fun x hx => h x (by simp [hx]))
    simp only [sentenceWordTotal, List.map_cons, List.sum_cons, List.length_cons]
    simp only [sentenceWordTotal] at h2
    omega

/-- C10: the extractive summarizer's average-length divisor is never
zero: every sentence retained by the more-than-20-characters filter
contains at least one word, so the integer-truncated average sentence
word length is at least 1 (and the sentence count, the other divisor,
is positive); the `target_length // int(avg)` division therefore never
raises `ZeroDivisionError`. -/
theorem extractive_no_div_by_zero :
    ∀ text : String, retainedSentences text ≠ [] →
      (∀ s ∈ retainedSentences text, 1 ≤ (pyWords s).length)
      ∧ 0 < (retainedSentences text).length
      ∧ 1 ≤ intAvg (retainedSentences text) := by
  intro text hne
  have hw := retained_sentence_has_word text
  have hlen : 0 < (retainedSentences text).length := List.length_pos.mpr hne
  refine ⟨hw, hlen, ?_⟩
  have hsum := length_le_wordTotal (retainedSentences text) hw
  exact (Nat.one_le_div_iff hlen).mpr hsum

/-- C10 witness: the divisor bound evaluated on a concrete input with
one retained sentence. -/
theorem extractive_no_div_by_zero_witness :
    (∀ s ∈ retainedSentences "aaaaa bbbbb ccccc ddddd", 1 ≤ (pyWords s).length)
    ∧ 0 < (retainedSentences "aaaaa bbbbb ccccc ddddd").length
    ∧ 1 ≤ intAvg (retainedSentences "aaaaa bbbbb ccccc ddddd") :=
  extractive_no_div_by_zero "aaaaa bbbbb ccccc ddddd" (by decide)

/-! ## C8: extractive summarizer on empty and small sentence lists -/

/-- C8 counterexample: on the 20-character input
`"abcdefghijabcdefghij"` the claim's filter (discard only < 20) retains
the sentence, whose count (1) is at most the derived target count, so
the claim predicts the sentence itself; the code's filter discards
length-20 sentences and returns the unable-to-summarize message. -/
theorem extractive_filter_boundary_cex :
    extractiveSummarize "abcdefghijabcdefghij" 150
      = "Unable to generate summary from the provided text."
    ∧ specRetainedSentences "abcdefghijabcdefghij" = ["abcdefghijabcdefghij."]
    ∧ (specRetainedSentences "abcdefghijabcdefghij").length
        ≤ targetSentenceCount (specRetainedSentences "abcdefghijabcdefghij") 150
    ∧ extractiveSummarize "abcdefghijabcdefghij" 150
        ≠ pyJoin " " (specRetainedSentences "abcdefghijabcdefghij") := by decide

/-- C8 (amended): the extractive summarizer's sentence filter discards
sentences whose trimmed length is at most 20 characters (sentences of
exactly 20 characters are also discarded).  When the filter leaves zero
sentences, `summarize` returns the fixed unable-to-summarize message;
when the retained sentence count is at most the derived target count,
it returns all retained sentences (trimmed, period-terminated) in
original order, joined by spaces. -/
theorem extractive_empty_and_small :
    ∀ (text : String) (targetLength : Nat),
      (retainedSentences text = [] →
        extractiveSummarize text targetLength
          = "Unable to generate summary from the provided text.")
      ∧ (retainedSentences text ≠ [] →
         (retainedSentences text).length
             ≤ targetSentenceCount (retainedSentences text) targetLength →
         extractiveSummarize text targetLength = pyJoin " " (retainedSentences text)) := by
  intro text L
  constructor
  · intro h
    simp [extractiveSummarize, h]
  · intro h1 h2
    have hA : ¬((retainedSentences text).isEmpty = true) := by
      simpa [List.isEmpty_iff] using h1
    simp only [extractiveSummarize, if_neg hA, if_pos h2]

/-- C8 witness: both branches of the amended statement at concrete
inputs. -/
theorem extractive_empty_and_small_witness :
    extractiveSummarize "" 150 = "Unable to generate summary from the provided text."
    ∧ extractiveSummarize "aaaaa bbbbb ccccc ddddd" 150
        = pyJoin " " (retainedSentences "aaaaa bbbbb ccccc ddddd") :=
  ⟨(extractive_empty_and_small "" 150).1 (by decide),
   (extractive_empty_and_small "aaaaa bbbbb ccccc ddddd" 150).2 (by decide) (by decide)⟩

/-! ## C9: extractive selection shape when the corpus is large -/

/-- C9: whenever the retained sentence count exceeds the target count
`max(1, min(total, target_length // int(avg)))`, the extractive
summarizer returns exactly the spec's first/middle-run/last selection,
joined by spaces. -/
theorem extractive_selection_spec :
    ∀ (text : String) (targetLength : Nat),
      targetSentenceCount (retainedSentences text) targetLength
          < (retainedSentences text).length →
      extractiveSummarize text targetLength
        = pyJoin " " (specSelection (retainedSentences text)
            (targetSentenceCount (retainedSentences text) targetLength)) := by
  intro text L h
  have hne : retainedSentences text ≠ [] := by
    intro h0
    rw [h0] at h
    simp at h
  have hA : ¬((retainedSentences text).isEmpty = true) := by
    simpa [List.isEmpty_iff] using hne
  have hB : ¬((retainedSentences text).length
      ≤ targetSentenceCount (retainedSentences text) L) := not_le.mpr h
  by_cases h2 : 2 < targetSentenceCount (retainedSentences text) L
  · have h3 : (retainedSentences text).length / 3 ≤ (retainedSentences text).length :=
      Nat.div_le_self _ _
    have hm : ((retainedSentences text).drop ((retainedSentences text).length / 3)).take
          (min (retainedSentences text).length
              ((retainedSentences text).length / 3
                + targetSentenceCount (retainedSentences text) L - 2)
            - (retainedSentences text).length / 3)
        = ((retainedSentences text).drop ((retainedSentences text).length / 3)).take
            (targetSentenceCount (retainedSentences text) L - 2) := by
      rw [List.take_eq_take]
      simp only [List.length_drop]
      omega
    simp only [extractiveSummarize, specSelection, if_neg hA, if_neg hB, if_pos h2, hm]
  · simp only [extractiveSummarize, specSelection, if_neg hA, if_neg hB, if_neg h2]

/-- C9 witness: four 6-word sentences with a word budget of 6 give a
target count of 1, and the summarizer returns exactly the spec
selection (here the first sentence alone). -/
theorem extractive_selection_spec_witness :
    extractiveSummarize
        "aaa bbb ccc ddd eee fff. aaa bbb ccc ddd eee ggg. aaa bbb ccc ddd eee hhh. aaa bbb ccc ddd eee iii"
        6
      = pyJoin " " (specSelection
          (retainedSentences
            "aaa bbb ccc ddd eee fff. aaa bbb ccc ddd eee ggg. aaa bbb ccc ddd eee hhh. aaa bbb ccc ddd eee iii")
          (targetSentenceCount
            (retainedSentences
              "aaa bbb ccc ddd eee fff. aaa bbb ccc ddd eee ggg. aaa bbb ccc ddd eee hhh. aaa bbb ccc ddd eee iii")
            6)) :=
  extractive_selection_spec _ 6 (by decide)

/-! ## Orchestrator lemmas -/

theorem summarizeWithPipeline_eq (m : Model) (text : String) (minLen maxLen : Nat) :
    summarizeWithPipeline m text minLen maxLen
      = Except.ok (pipelineResult m text minLen maxLen, [⟨text, minLen, maxLen⟩]) := by
  cases hm : m text minLen maxLen with
  | ok s => simp [summarizeWithPipeline, pipelineResult, hm]
  | error e => simp [summarizeWithPipeline, pipelineResult, hm]

theorem chunkPhase_ok (m : Model) :
    ∀ (chunks : List String) (n minLen maxLen : Nat),
      ∃ r, chunkPhase m chunks n minLen maxLen = Except.ok r := by
  intro chunks
  induction chunks with
  | nil => intro n a b; exact ⟨([], []), rfl⟩
  | cons c rest ih =>
    intro n a b
    obtain ⟨r, hr⟩ := ih n a b
    by_cases h : 50 < (pyWords c).length
    · exact ⟨(pipelineResult m c (max 20 (a / n)) (min 130 (b / n)) :: r.1,
        (⟨c, max 20 (a / n), min 130 (b / n)⟩ : Call) :: r.2), by
          simp [chunkPhase, hr, summarizeWithPipeline_eq, h]⟩
    · exact ⟨r, by simp [chunkPhase, hr, h]⟩

theorem handleLongText_ok (m : Model) (text : String) (minLen maxLen : Nat) :
    ∃ r, handleLongText m text minLen maxLen = Except.ok r := by
  obtain ⟨r, hr⟩ :=
    chunkPhase_ok m (chunkText text 1000) (chunkText text 1000).length minLen maxLen
  by_cases h : maxLen < (pyWords (pyJoin " " r.1)).length
  · exact ⟨(pipelineResult m (pyJoin " " r.1) minLen maxLen,
      r.2 ++ [⟨pyJoin " " r.1, minLen, maxLen⟩]), by
        simp [handleLongText, hr, summarizeWithPipeline_eq, h]⟩
  · exact ⟨(pyJoin " " r.1, r.2), by simp [handleLongText, hr, h]⟩

theorem generateSummary_ok (mgr : Option Model) (text : String) (minLen maxLen : Nat) :
    ∃ r, generateSummary mgr text minLen maxLen = Except.ok r := by
  by_cases h : (pyWords (cleanText text)).length < 50
  · exact ⟨("Text is too short to generate a meaningful summary.", []), by
      simp [generateSummary, pyTry, h]⟩
  · cases mgr with
    | none =>
      exact ⟨(extractiveSummarize (cleanText text) maxLen, []), by
        simp [generateSummary, pyTry, h]⟩
    | some m =>
      by_cases h2 : 1000 < (pyWords (cleanText text)).length
      · obtain ⟨r, hr⟩ := handleLongText_ok m (cleanText text) minLen maxLen
        exact ⟨r, by simp [generateSummary, pyTry, h, h2, hr]⟩
      · exact ⟨(pipelineResult m (cleanText text) minLen maxLen,
          [⟨cleanText text, minLen, maxLen⟩]), by
            simp [generateSummary, pyTry, h, h2, summarizeWithPipeline_eq]⟩

/-! ## C1: generate_summary always returns a string -/

/-- C1: for every model oracle (including every failing one) and every
input, `generate_summary` produces a result and never propagates an
exception; a model-inference error is caught inside
`_summarize_with_pipeline` and redirected to the extractive fallback
for that unit; and the orchestrator-boundary handler turns any escaping
exception into a plain string (the re-cleaned extractive summary, or
the literal error-describing string if even that raised). -/
theorem generate_summary_never_raises :
    ∀ (mgr : Option Model) (text : String) (minLen maxLen : Nat)
      (m : Model) (t2 : String) (mn mx : Nat) (e : String),
      (∃ r, generateSummary mgr text minLen maxLen = Except.ok r)
      ∧ (m t2 mn mx = Except.error e →
          summarizeWithPipeline m t2 mn mx
            = Except.ok (extractiveSummarize t2 mx, [⟨t2, mn, mx⟩]))
      ∧ (∀ e2, genSummaryHandler text maxLen e2
          = Except.ok (extractiveSummarize (cleanText text) maxLen, [])) := by
  intro mgr text a b m t2 mn mx e
  refine ⟨generateSummary_ok mgr text a b, ?_, fun e2 => rfl⟩
  intro he
  simp [summarizeWithPipeline, he]

/-- C1 witness: the guarantees instantiated with an always-failing
model on concrete inputs. -/
theorem generate_summary_never_raises_witness :
    (∃ r, generateSummary (some failModel) "x" 1 2 = Except.ok r)
    ∧ summarizeWithPipeline failModel "y z" 1 2
        = Except.ok (extractiveSummarize "y z" 2, [⟨"y z", 1, 2⟩])
    ∧ genSummaryHandler "x" 2 "boom"
        = Except.ok (extractiveSummarize (cleanText "x") 2, []) :=
  ⟨(generate_summary_never_raises (some failModel) "x" 1 2 failModel "y z" 1 2
      "model failure").1,
   (generate_summary_never_raises (some failModel) "x" 1 2 failModel "y z" 1 2
      "model failure").2.1 rfl,
   (generate_summary_never_raises (some failModel) "x" 1 2 failModel "y z" 1 2
      "model failure").2.2 "boom"⟩

/-! ## C2: too-short inputs -/

/-- C2: when the cleaned text has fewer than 50 whitespace-separated
words, `generate_summary` returns exactly the too-short sentinel and
the model-call log is empty — no model invocation occurs, for any
loaded model. -/
theorem too_short_no_model_call :
    ∀ (mgr : Option Model) (text : String) (minLen maxLen : Nat),
      (pyWords (cleanText text)).length < 50 →
      generateSummary mgr text minLen maxLen
        = Except.ok ("Text is too short to generate a meaningful summary.", []) := by
  intro mgr text a b h
  simp [generateSummary, pyTry, h]

/-- C2 witness: a concrete short input, with a loaded (failing) model. -/
theorem too_short_no_model_call_witness :
    generateSummary (some failModel) "hello world, a short input." 50 150
      = Except.ok ("Text is too short to generate a meaningful summary.", []) :=
  too_short_no_model_call (some failModel) "hello world, a short input." 50 150 (by decide)

/-! ## C7: per-chunk budgets -/

theorem chunkPhase_budgets (m : Model) :
    ∀ (chunks : List String) (n minLen maxLen : Nat) (r : List String × List Call),
      chunkPhase m chunks n minLen maxLen = Except.ok r →
      ∀ c ∈ r.2, c.minLen = max 20 (minLen / n) ∧ c.maxLen = min 130 (maxLen / n) := by
  intro chunks
  induction chunks with
  | nil =>
    intro n a b r h c hc
    have hr : (([], []) : List String × List Call) = r := Except.ok.inj h
    rw [← hr] at hc
    simp at hc
  | cons ch rest ih =>
    intro n a b r h c hc
    obtain ⟨r2, hr2⟩ := chunkPhase_ok m rest n a b
    simp only [chunkPhase, hr2] at h
    by_cases h5 : 50 < (pyWords ch).length
    · rw [if_pos h5, summarizeWithPipeline_eq] at h
      have hr : (pipelineResult m ch (max 20 (a / n)) (min 130 (b / n)) :: r2.1,
          (⟨ch, max 20 (a / n), min 130 (b / n)⟩ : Call) :: r2.2) = r := by
        have := Except.ok.inj h
        simpa using this
      rw [← hr] at hc
      rcases List.mem_cons.mp hc with h' | h'
      · subst h'
        exact ⟨rfl, rfl⟩
      · exact ih n a b r2 hr2 c h'
    · rw [if_neg h5] at h
      have hr : r2 = r := Except.ok.inj h
      rw [← hr] at hc
      exact ih n a b r2 hr2 c hc

/-- C7: in the chunked path, every per-chunk model call uses the
budgets `max(20, min_len // len(chunks))` and
`min(130, max_len // len(chunks))`, computed with integer floor
division and the fixed constants 20 and 130. -/
theorem chunked_path_budgets :
    ∀ (m : Model) (text : String) (minLen maxLen : Nat) (r : List String × List Call),
      chunkPhase m (chunkText text 1000) (chunkText text 1000).length minLen maxLen
        = Except.ok r →
      ∀ c ∈ r.2,
        c.minLen = max 20 (minLen / (chunkText text 1000).length)
        ∧ c.maxLen = min 130 (maxLen / (chunkText text 1000).length) :=
  fun m text a b r h => chunkPhase_budgets m _ _ a b r h

/-- C7 witness: one 60-word chunk with budgets (50, 150) produces one
model call with per-chunk budgets `max 20 (50/1) = 50` and
`min 130 (150/1) = 130`. -/
theorem chunked_path_budgets_witness :
    (⟨sixtyWords ++ ".", 50, 130⟩ : Call).minLen
        = max 20 (50 / (chunkText sixtyWords 1000).length)
    ∧ (⟨sixtyWords ++ ".", 50, 130⟩ : Call).maxLen
        = min 130 (150 / (chunkText sixtyWords 1000).length) :=
  chunked_path_budgets okModel sixtyWords 50 150
    (["ok"], [⟨sixtyWords ++ ".", 50, 130⟩]) rfl
    ⟨sixtyWords ++ ".", 50, 130⟩ (by decide)

/-! ## C6: at most one re-summarization pass over the combined summary -/

/-- C6: in the chunked path, if the space-joined concatenation of the
per-chunk summaries exceeds `max_len` words, exactly one additional
pipeline pass over the concatenation with the original `(min, max)`
budget is performed (one extra entry in the call log) and its result
returned as-is; otherwise the concatenation is returned unchanged with
no extra call. -/
theorem chunked_path_single_reshrink :
    ∀ (m : Model) (text : String) (minLen maxLen : Nat) (r : List String × List Call),
      chunkPhase m (chunkText text 1000) (chunkText text 1000).length minLen maxLen
        = Except.ok r →
      (maxLen < (pyWords (pyJoin " " r.1)).length →
        handleLongText m text minLen maxLen
          = Except.ok (pipelineResult m (pyJoin " " r.1) minLen maxLen,
              r.2 ++ [⟨pyJoin " " r.1, minLen, maxLen⟩]))
      ∧ ((pyWords (pyJoin " " r.1)).length ≤ maxLen →
        handleLongText m text minLen maxLen = Except.ok (pyJoin " " r.1, r.2)) := by
  intro m text a b r hr
  constructor
  · intro hover
    simp [handleLongText, hr, hover, summarizeWithPipeline_eq]
  · intro hunder
    simp [handleLongText, hr, not_lt.mpr hunder]

/-- C6 witness: with `max_len = 2` the combined chunk summary `"x y z"`
(3 words) triggers exactly one re-summarization pass with the original
budgets (0, 2). -/
theorem chunked_path_single_reshrink_witness :
    handleLongText threeWordModel sixtyWords 0 2
      = Except.ok (pipelineResult threeWordModel "x y z" 0 2,
          [⟨sixtyWords ++ ".", 20, 2⟩] ++ [⟨"x y z", 0, 2⟩]) :=
  (chunked_path_single_reshrink threeWordModel sixtyWords 0 2
    (["x y z"], [⟨sixtyWords ++ ".", 20, 2⟩]) rfl).1 (by decide)
